import Mathlib

/-!
Verification development for the paper-folding engine
(`src/integrations/paper_engine.py`).

Coordinates are embedded as rationals (`ℚ`); the Python code computes with
IEEE floats, and every constant that appears in the source (including the
`1e-10` epsilon) is exactly representable here.  Pure Python functions become
Lean functions; the mutable `PaperState` class becomes a structure with
explicit state-passing; `Optional` returns become `Option`.
-/

namespace PaperEngine

/-- A 2D point, as the `(x, y)` tuples of the source. -/
abbrev Point : Type := ℚ × ℚ

/-- The `1e-10` tolerance literal used throughout `paper_engine.py`. -/
def eps : ℚ := 1 / 10000000000

/-- Embeds `_reflect_point`: reflect point `(px, py)` across the line through
`(lx1,ly1)`–`(lx2,ly2)`; a zero-length line returns the point unchanged. -/
def reflectPoint (px py lx1 ly1 lx2 ly2 : ℚ) : Point :=
  let dx := lx2 - lx1
  let dy := ly2 - ly1
  let lenSq := dx * dx + dy * dy
  if lenSq = 0 then (px, py)
  else
    let t := ((px - lx1) * dx + (py - ly1) * dy) / lenSq
    let projX := lx1 + t * dx
    let projY := ly1 + t * dy
    (2 * projX - px, 2 * projY - py)

/-- Embeds `_side_of_line`: positive if the point is on the left side of the
directed line, negative if on the right, 0 if on the line. -/
def sideOfLine (px py lx1 ly1 lx2 ly2 : ℚ) : ℚ :=
  (lx2 - lx1) * (py - ly1) - (ly2 - ly1) * (px - lx1)

/-- Embeds `_line_segment_intersection`: intersection of two finite segments, or
`none` when the determinant is within `1e-10` of zero or either segment
parameter falls outside `[-1e-10, 1 + 1e-10]`. -/
def lineSegmentIntersection (ax1 ay1 ax2 ay2 bx1 by1 bx2 by2 : ℚ) : Option Point :=
  let dax := ax2 - ax1
  let day := ay2 - ay1
  let dbx := bx2 - bx1
  let dby := by2 - by1
  let denom := dax * dby - day * dbx
  if |denom| < eps then none
  else
    let t := ((bx1 - ax1) * dby - (by1 - ay1) * dbx) / denom
    let s := ((bx1 - ax1) * day - (by1 - ay1) * dax) / denom
    if -eps ≤ t ∧ t ≤ 1 + eps ∧ -eps ≤ s ∧ s ≤ 1 + eps then
      some (ax1 + t * dax, ay1 + t * day)
    else none

/-- One iteration of the `for i in range(n)` loop body of `_split_polygon`:
the vertices this edge `(curr, nxt)` contributes to the left and right output
lists.  A returned intersection tuple is always truthy in Python, so the
`if pt:` guard is exactly the `some` match. -/
def splitStep (lx1 ly1 lx2 ly2 : ℚ) (curr nxt : Point) : List Point × List Point :=
  let sideCurr := sideOfLine curr.1 curr.2 lx1 ly1 lx2 ly2
  let sideNext := sideOfLine nxt.1 nxt.2 lx1 ly1 lx2 ly2
  let base : List Point × List Point :=
    (if 0 ≤ sideCurr then [curr] else [], if sideCurr ≤ 0 then [curr] else [])
  if (eps < sideCurr ∧ sideNext < -eps) ∨ (sideCurr < -eps ∧ eps < sideNext) then
    match lineSegmentIntersection curr.1 curr.2 nxt.1 nxt.2 lx1 ly1 lx2 ly2 with
    | some pt => (base.1 ++ [pt], base.2 ++ [pt])
    | none => base
  else base

/-- The list of consecutive vertex pairs `(polygon[i], polygon[(i+1) % n])`
for `i = 0, …, n-1`, as iterated by `_split_polygon`. -/
def cyclePairs (polygon : List Point) : List (Point × Point) :=
  polygon.zip (polygon.drop 1 ++ polygon.take 1)

/-- Embeds `_split_polygon`: split a polygon by a line into the left-side and
right-side vertex lists, walking the edges in order and appending each
edge's contribution. -/
def splitPolygon (polygon : List Point) (lx1 ly1 lx2 ly2 : ℚ) :
    List Point × List Point :=
  ((cyclePairs polygon).flatMap fun pr => (splitStep lx1 ly1 lx2 ly2 pr.1 pr.2).1,
   (cyclePairs polygon).flatMap fun pr => (splitStep lx1 ly1 lx2 ly2 pr.1 pr.2).2)

/-- Embeds the `PaperState` class: the current state of the paper, an ordered list of polygon
layers (index 0 topmost) plus the nominal size. -/
structure PaperState where
  layers : List (List Point)
  size : ℚ
deriving DecidableEq

/-- Embeds `PaperState.__init__`: start with a single square layer of the given size. -/
def PaperState.new (size : ℚ) : PaperState :=
  { layers := [[(0, 0), (size, 0), (size, size), (0, size)]], size := size }

/-- Embeds the `PaperState.outline` property: the top layer, or `[]` when there are no layers. -/
def PaperState.outline (s : PaperState) : List Point :=
  s.layers.headD []

/-- The pieces one layer contributes to the new layer list in
`PaperState.valley_fold`: the moving side (selected by `fold_side`) is
reflected across the line, the stationary side is kept; empty pieces are
not appended. -/
def foldPieces (lx1 ly1 lx2 ly2 : ℚ) (foldSide : String) (polygon : List Point) :
    List (List Point) :=
  let lr := splitPolygon polygon lx1 ly1 lx2 ly2
  if foldSide = "bottom" ∨ foldSide = "right" then
    (if lr.2 ≠ [] then [lr.2.map fun p => reflectPoint p.1 p.2 lx1 ly1 lx2 ly2] else []) ++
    (if lr.1 ≠ [] then [lr.1] else [])
  else
    (if lr.1 ≠ [] then [lr.1.map fun p => reflectPoint p.1 p.2 lx1 ly1 lx2 ly2] else []) ++
    (if lr.2 ≠ [] then [lr.2] else [])

/-- Embeds `PaperState.valley_fold`: split every layer, reflect the moving side,
collect all non-empty pieces; if that collection is empty, keep the old
layers (`new_layers if new_layers else self.layers`). -/
def PaperState.valleyFold (s : PaperState) (lineFrom lineTo : Point)
    (foldSide : String) : PaperState :=
  let newLayers :=
    s.layers.flatMap (foldPieces lineFrom.1 lineFrom.2 lineTo.1 lineTo.2 foldSide)
  { s with layers := if newLayers ≠ [] then newLayers else s.layers }

/-- Embeds `PaperState.mountain_fold`: literally delegates to `valley_fold`. -/
def PaperState.mountainFold (s : PaperState) (lineFrom lineTo : Point)
    (foldSide : String) : PaperState :=
  s.valleyFold lineFrom lineTo foldSide

/-- The pieces one layer contributes in `PaperState.cut`: the kept side if
non-empty, nothing otherwise. -/
def cutPieces (lx1 ly1 lx2 ly2 : ℚ) (keepSide : String) (polygon : List Point) :
    List (List Point) :=
  let lr := splitPolygon polygon lx1 ly1 lx2 ly2
  if keepSide = "left" ∧ lr.1 ≠ [] then [lr.1]
  else if keepSide = "right" ∧ lr.2 ≠ [] then [lr.2]
  else []

/-- Embeds `PaperState.cut`: split every layer, keep the selected side of each,
with the same empty-result fallback as `valley_fold`. -/
def PaperState.cut (s : PaperState) (lineFrom lineTo : Point)
    (keepSide : String) : PaperState :=
  let newLayers :=
    s.layers.flatMap (cutPieces lineFrom.1 lineFrom.2 lineTo.1 lineTo.2 keepSide)
  { s with layers := if newLayers ≠ [] then newLayers else s.layers }

/-- Minimum of a list of rationals with a default for the empty list
(models Python's `min` applied to a known non-empty list). -/
def qMin (l : List ℚ) (d : ℚ) : ℚ :=
  match l with
  | [] => d
  | x :: xs => xs.foldl min x

/-- Maximum counterpart of `qMin`. -/
def qMax (l : List ℚ) (d : ℚ) : ℚ :=
  match l with
  | [] => d
  | x :: xs => xs.foldl max x

/-- Embeds `PaperState.get_bounds`: bounding box `(min_x, min_y, max_x, max_y)` of
all layers' vertices, or `(0, 0, size, size)` when there are none. -/
def PaperState.getBounds (s : PaperState) : ℚ × ℚ × ℚ × ℚ :=
  let allPts := s.layers.flatten
  if allPts = [] then (0, 0, s.size, s.size)
  else
    let xs := allPts.map Prod.fst
    let ys := allPts.map Prod.snd
    (qMin xs 0, qMin ys 0, qMax xs 0, qMax ys 0)

/-- Embeds `PaperState.clone`: deep copy.  On immutable Lean values the list copies
are identities, so the clone is the same value. -/
def PaperState.clone (s : PaperState) : PaperState :=
  { layers := s.layers, size := s.size }

/-- Python's binary `min` on numbers: the first argument wins ties. -/
def pyMin (a b : ℚ) : ℚ := if b < a then b else a

/-- Python's binary `max` on numbers: the first argument wins ties. -/
def pyMax (a b : ℚ) : ℚ := if a < b then b else a

/-- Floor of a rational (`num.fdiv den`), spelled out so that it reduces in
the kernel; used to model the decimal rounding of `%.1f` formatting. -/
def ratFloor (q : ℚ) : ℤ := q.num.fdiv q.den

/-- Round to the nearest integer, ties to even — the rounding applied by
Python's fixed-point float formatting. -/
def roundHalfEven (q : ℚ) : ℤ :=
  let f := ratFloor q
  let frac := q - (f : ℚ)
  if frac < 1 / 2 then f
  else if 1 / 2 < frac then f + 1
  else if f % 2 = 0 then f else f + 1

/-- Python's `f"{x:.1f}"`: one decimal digit, round half to even, a sign in
front of `0.0` when a negative value rounds to zero. -/
def fmt1 (q : ℚ) : String :=
  let n := roundHalfEven (q * 10)
  let sign := if n < 0 ∨ (n = 0 ∧ q < 0) then "-" else ""
  let a := n.natAbs
  sign ++ toString (a / 10) ++ "." ++ toString (a % 10)

/-- Models `math.sqrt` by a fixed-precision rational square root (ten decimal
digits).  It feeds only the rendered arrow coordinates; no claim in this
development depends on its value. -/
def sqrtQ (q : ℚ) : ℚ :=
  if q ≤ 0 then 0
  else ((Nat.sqrt (q.num.toNat * q.den * 100000000000000000000) : ℤ) : ℚ) /
    ((q.den : ℚ) * 10000000000)

/-- The fold-line display color chosen in `render_step_svg`. -/
def foldColorOf (foldType : String) : String :=
  if foldType = "mountain_fold" then "#E74C3C"
  else if foldType = "valley_fold" then "#3B82F6"
  else "#8B7355"

/-- The legend label dictionary lookup of `render_step_svg`
(default `"fold"`). -/
def foldLabelOf (foldType : String) : String :=
  if foldType = "valley_fold" then "valley"
  else if foldType = "mountain_fold" then "mountain"
  else if foldType = "cut" then "cut"
  else "fold"

/-- Embeds `_polygon_to_svg_path`: the `d` attribute for a polygon, or the empty
string when the polygon has no points. -/
def polygonToSvgPath (polygon : List Point) (tx ty : ℚ → ℚ) : String :=
  match polygon with
  | [] => ""
  | p :: rest =>
    let parts := ("M " ++ fmt1 (tx p.1) ++ " " ++ fmt1 (ty p.2)) ::
      ((rest.map fun q => "L " ++ fmt1 (tx q.1) ++ " " ++ fmt1 (ty q.2)) ++ ["Z"])
    String.intercalate " " parts

/-- Embeds `_make_transform` inside `render_step_svg`: fit a state's bounding box
into a half-canvas box centered at `(cx, cy)` (`half_w = 65`), returning the
two coordinate maps and the scale. -/
def makeTransform (height : ℤ) (state : PaperState) (cx cy : ℚ) :
    (ℚ → ℚ) × (ℚ → ℚ) × ℚ :=
  let b := state.getBounds
  let bx1 := b.1
  let by1 := b.2.1
  let bx2 := b.2.2.1
  let by2 := b.2.2.2
  let sw := if bx2 ≠ bx1 then bx2 - bx1 else 1
  let sh := if by2 ≠ by1 then by2 - by1 else 1
  let scale := pyMin (65 * 2 / sw) (((height : ℚ) - 80) / sh)
  let ox := cx - (bx1 + sw / 2) * scale
  let oy := cy - (by1 + sh / 2) * scale
  (fun x => x * scale + ox, fun y => y * scale + oy, scale)

/-- The two markup lines (`shadow`, `face`) emitted for layer `i` of the
"A" (before) side of `render_step_svg`. -/
def beforeLayerLines (txA tyA : ℚ → ℚ) (i : ℕ) (layer : List Point) : List String :=
  let shadowPath := polygonToSvgPath layer (fun x => txA x + 2) (fun y => tyA y + 2)
  let path := polygonToSvgPath layer txA tyA
  let fill := if i = 0 then "#FFE8E8" else "#FFFEF5"
  ["  <path d=\"" ++ shadowPath ++ "\" fill=\"#E8D5C0\" opacity=\"0.3\"/>",
   "  <path d=\"" ++ path ++ "\" fill=\"" ++ fill ++
     "\" stroke=\"#8B7355\" stroke-width=\"1.5\"/>"]

/-- The two markup lines emitted for layer `i` of the "B" (after) side,
with opacity `max(0.4, 1.0 - i * 0.2)`. -/
def afterLayerLines (txB tyB : ℚ → ℚ) (i : ℕ) (layer : List Point) : List String :=
  let shadowPath := polygonToSvgPath layer (fun x => txB x + 2) (fun y => tyB y + 2)
  let path := polygonToSvgPath layer txB tyB
  let fill := if i = 0 then "#FFFEF5" else "#F5F0E8"
  let opac := pyMax (2 / 5) (1 - (i : ℚ) * (1 / 5))
  ["  <path d=\"" ++ shadowPath ++ "\" fill=\"#E8D5C0\" opacity=\"0.3\"/>",
   "  <path d=\"" ++ path ++ "\" fill=\"" ++ fill ++
     "\" stroke=\"#8B7355\" stroke-width=\"1.5\" opacity=\"" ++ fmt1 opac ++ "\"/>"]

/-- The fold-line markup of `render_step_svg`: the dashed line, and when the
on-canvas fold line has positive length, the action arrow and its dot. -/
def foldLineMarkup (txA tyA : ℚ → ℚ) (fc : String) (fl : Point × Point) : List String :=
  let flX1 := txA fl.1.1
  let flY1 := tyA fl.1.2
  let flX2 := txA fl.2.1
  let flY2 := tyA fl.2.2
  let lineEl := "  <line x1=\"" ++ fmt1 flX1 ++ "\" y1=\"" ++ fmt1 flY1 ++
    "\" x2=\"" ++ fmt1 flX2 ++ "\" y2=\"" ++ fmt1 flY2 ++ "\" stroke=\"" ++ fc ++
    "\" stroke-width=\"2\" stroke-dasharray=\"6,4\"/>"
  let midX := (flX1 + flX2) / 2
  let midY := (flY1 + flY2) / 2
  let dx := flX2 - flX1
  let dy := flY2 - flY1
  let length := sqrtQ (dx * dx + dy * dy)
  if 0 < length then
    let nx := -dy / length * 20
    let ny := dx / length * 20
    [lineEl,
     "  <path d=\"M " ++ fmt1 midX ++ " " ++ fmt1 midY ++ " Q " ++ fmt1 (midX + nx) ++
       " " ++ fmt1 (midY + ny) ++ " " ++ fmt1 (midX + nx * (1 / 2)) ++ " " ++
       fmt1 (midY + ny * (3 / 2)) ++ "\" fill=\"none\" stroke=\"#10B981\" stroke-width=\"2\"/>",
     "  <circle cx=\"" ++ fmt1 (midX + nx * (1 / 2)) ++ "\" cy=\"" ++
       fmt1 (midY + ny * (3 / 2)) ++ "\" r=\"3\" fill=\"#10B981\"/>"]
  else [lineEl]

/-- The `lines` list assembled by `render_step_svg`, in source order:
header, "A" side (centered at x=87), optional fold line, transition arrow,
"B" side (centered at x=253), optional action label, legend, closing tag. -/
def renderStepSvgLines (before after : PaperState) (foldLine : Option (Point × Point))
    (foldType : String) (actionLabel : String) (width height : ℤ) : List String :=
  let tA := makeTransform height before 87 115
  let tB := makeTransform height after 253 115
  let txA := tA.1
  let tyA := tA.2.1
  let txB := tB.1
  let tyB := tB.2.1
  let fc := foldColorOf foldType
  let flab := foldLabelOf foldType
  let w := toString width
  let h := toString height
  let header :=
    ["<svg viewBox=\"0 0 " ++ w ++ " " ++ h ++ "\" xmlns=\"http://www.w3.org/2000/svg\">",
     "  <rect x=\"0\" y=\"0\" width=\"" ++ w ++ "\" height=\"" ++ h ++
       "\" rx=\"12\" fill=\"#FFF9F0\"/>",
     "  <text x=\"87\" y=\"22\" text-anchor=\"middle\" font-size=\"10\" fill=\"#999\" font-weight=\"600\">A</text>"]
  let beforeLines := before.layers.enum.flatMap fun il => beforeLayerLines txA tyA il.1 il.2
  let flLines := match foldLine with
    | some f => foldLineMarkup txA tyA fc f
    | none => []
  let arrowLines :=
    ["  <path d=\"M 163 115 L 178 115\" fill=\"none\" stroke=\"#666\" stroke-width=\"2.5\"/>",
     "  <polygon points=\"176,110 186,115 176,120\" fill=\"#666\"/>",
     "  <text x=\"253\" y=\"22\" text-anchor=\"middle\" font-size=\"10\" fill=\"#8B7355\" font-weight=\"700\">B</text>"]
  let afterLines := after.layers.enum.flatMap fun il => afterLayerLines txB tyB il.1 il.2
  let labelLines :=
    if actionLabel ≠ "" then
      ["  <text x=\"" ++ toString (width.fdiv 2) ++ "\" y=\"" ++ toString (height - 28) ++
       "\" text-anchor=\"middle\" font-size=\"11\" fill=\"#10B981\" font-weight=\"600\">" ++
       actionLabel ++ "</text>"]
    else []
  let lyS := toString (height - 12)
  let ly4 := toString (height - 12 + 4)
  let legend :=
    ["  <line x1=\"20\" y1=\"" ++ lyS ++ "\" x2=\"40\" y2=\"" ++ lyS ++ "\" stroke=\"" ++
       fc ++ "\" stroke-width=\"1.5\" stroke-dasharray=\"6,4\"/>",
     "  <text x=\"45\" y=\"" ++ ly4 ++ "\" font-size=\"9\" fill=\"#666\">" ++ flab ++ "</text>",
     "  <line x1=\"100\" y1=\"" ++ lyS ++ "\" x2=\"120\" y2=\"" ++ lyS ++
       "\" stroke=\"#10B981\" stroke-width=\"2\"/>",
     "  <text x=\"125\" y=\"" ++ ly4 ++ "\" font-size=\"9\" fill=\"#666\">action</text>"]
  header ++ beforeLines ++ flLines ++ arrowLines ++ afterLines ++ labelLines ++
    legend ++ ["</svg>"]

/-- Embeds `render_step_svg`: the joined markup string. -/
def renderStepSvg (before after : PaperState) (foldLine : Option (Point × Point))
    (foldType : String) (actionLabel : String) (width height : ℤ) : String :=
  String.intercalate "\n"
    (renderStepSvgLines before after foldLine foldType actionLabel width height)

/-- An operation descriptor as consumed by `build_tutorial_svgs`: a loosely
typed dict whose fields may all be absent (`op.get` with defaults). -/
structure FoldOp where
  type : Option String := none
  fold_line : Option (Point × Point) := none
  fold_side : Option String := none
  keep_side : Option String := none
  label : Option String := none
deriving DecidableEq

/-- The state transition of one `build_tutorial_svgs` loop iteration:
valley and mountain folds both call `valley_fold`, `cut` calls `cut`, any
other kind leaves the paper untouched. -/
def applyTutorialOp (paper : PaperState) (op : FoldOp) : PaperState :=
  let opType := op.type.getD "valley_fold"
  let foldLine := op.fold_line.getD ((0, 1 / 2), (1, 1 / 2))
  let foldSide := op.fold_side.getD "bottom"
  if opType = "valley_fold" ∨ opType = "mountain_fold" then
    paper.valleyFold foldLine.1 foldLine.2 foldSide
  else if opType = "cut" then
    paper.cut foldLine.1 foldLine.2 (op.keep_side.getD "left")
  else paper

/-- One `build_tutorial_svgs` loop iteration: clone the before state, apply
the op, clone the after state, render the step (canvas 340×260). -/
def buildStep (paper : PaperState) (op : FoldOp) : PaperState × String :=
  let opType := op.type.getD "valley_fold"
  let foldLine := op.fold_line.getD ((0, 1 / 2), (1, 1 / 2))
  let label := op.label.getD ""
  let before := paper.clone
  let next := applyTutorialOp paper op
  let after := next.clone
  (next, renderStepSvg before after (some foldLine) opType label 340 260)

/-- The loop of `build_tutorial_svgs`, threading the paper state. -/
def buildGo (paper : PaperState) : List FoldOp → List String
  | [] => []
  | op :: rest =>
    let st := buildStep paper op
    st.2 :: buildGo st.1 rest

/-- Embeds `build_tutorial_svgs`: simulate every operation on a fresh paper of the
given size and collect one rendered diagram per operation. -/
def buildTutorialSvgs (foldOps : List FoldOp) (paperSize : ℚ) : List String :=
  buildGo (PaperState.new paperSize) foldOps

/-- The fold/cut operations a `PaperState` accepts, for stating invariants
over arbitrary operation sequences. -/
inductive Op where
  | valley (lineFrom lineTo : Point) (foldSide : String)
  | mountain (lineFrom lineTo : Point) (foldSide : String)
  | cutOp (lineFrom lineTo : Point) (keepSide : String)
deriving DecidableEq

/-- Apply one `Op` to a state. -/
def applyOp (s : PaperState) : Op → PaperState
  | .valley lf lt fs => s.valleyFold lf lt fs
  | .mountain lf lt fs => s.mountainFold lf lt fs
  | .cutOp lf lt ks => s.cut lf lt ks

end PaperEngine

namespace PaperEngine

/-! ### Helper lemmas -/

lemma eps_pos : (0 : ℚ) < eps := by norm_num [eps]

lemma flatMap_congr_mem {α β : Type} {l : List α} {f g : α → List β}
    (h : ∀ a ∈ l, f a = g a) : l.flatMap f = l.flatMap g := by
  induction l with
  | nil => rfl
  | cons a t ih =>
    simp only [List.flatMap_cons]
    rw [h a (List.mem_cons_self a t), ih fun x hx => h x (List.mem_cons_of_mem a hx)]

lemma flatMap_fst_singleton {α β : Type} (l : List (α × β)) :
    (l.flatMap fun pr => [pr.1]) = l.map Prod.fst := by
  rw [← List.flatMap_map Prod.fst (fun x => [x]) l, List.flatMap_singleton']

/-- Both members of a `cyclePairs` pair are vertices of the polygon. -/
lemma cyclePairs_mem {poly : List Point} {pr : Point × Point}
    (h : pr ∈ cyclePairs poly) : pr.1 ∈ poly ∧ pr.2 ∈ poly := by
  obtain ⟨a, b⟩ := pr
  have hz := List.of_mem_zip h
  refine ⟨hz.1, ?_⟩
  rcases List.mem_append.mp hz.2 with h2 | h2
  · exact List.drop_subset 1 poly h2
  · exact List.take_subset 1 poly h2

lemma cyclePairs_map_fst (poly : List Point) :
    (cyclePairs poly).map Prod.fst = poly := by
  refine List.map_fst_zip poly _ ?_
  simp only [List.length_append, List.length_drop, List.length_take]
  omega

/-- A fold or cut never turns a non-empty layer list into an empty one. -/
lemma applyOp_layers_ne_nil {s : PaperState} (hs : s.layers ≠ []) (op : Op) :
    (applyOp s op).layers ≠ [] := by
  cases op with
  | valley lf lt fs =>
    simp only [applyOp, PaperState.valleyFold]
    split
    · assumption
    · exact hs
  | mountain lf lt fs =>
    simp only [applyOp, PaperState.mountainFold, PaperState.valleyFold]
    split
    · assumption
    · exact hs
  | cutOp lf lt ks =>
    simp only [applyOp, PaperState.cut]
    split
    · assumption
    · exact hs

lemma buildGo_length (paper : PaperState) (ops : List FoldOp) :
    (buildGo paper ops).length = ops.length := by
  induction ops generalizing paper with
  | nil => rfl
  | cons op rest ih => simp [buildGo, ih]

/-! ### Claim theorems -/

/-- C10: `mountain_fold` produces exactly the same layer list as
`valley_fold` on every state, fold line and fold side: it is a literal
alias, differing only in how the step is rendered. -/
theorem mountainFold_eq_valleyFold (s : PaperState) (lf lt : Point) (fs : String) :
    s.mountainFold lf lt fs = s.valleyFold lf lt fs := rfl

/-- C9: `render_step_svg` is deterministic — two calls with identical
`before`, `after`, `fold_line`, `fold_type`, `action_label`, `width` and
`height` arguments return byte-identical markup. -/
theorem renderStepSvg_deterministic (b a b2 a2 : PaperState)
    (fl fl2 : Option (Point × Point)) (ft ft2 lbl lbl2 : String) (w w2 ht2 ht3 : ℤ)
    (hb : b = b2) (ha : a = a2) (hfl : fl = fl2) (hft : ft = ft2)
    (hlbl : lbl = lbl2) (hw : w = w2) (hh : ht2 = ht3) :
    renderStepSvg b a fl ft lbl w ht2 = renderStepSvg b2 a2 fl2 ft2 lbl2 w2 ht3 := by
  subst hb ha hfl hft hlbl hw hh
  rfl

/-- Witness for C9 at concrete arguments. -/
theorem renderStepSvg_deterministic_witness :
    renderStepSvg (PaperState.new 1) (PaperState.new 1) none "cut" "" 340 260 =
      renderStepSvg (PaperState.new 1) (PaperState.new 1) none "cut" "" 340 260 :=
  renderStepSvg_deterministic (PaperState.new 1) (PaperState.new 1)
    (PaperState.new 1) (PaperState.new 1) none none "cut" "cut" "" "" 340 340 260 260
    rfl rfl rfl rfl rfl rfl rfl

/-- C5: starting from `new(size)`, after any sequence of valley folds,
mountain folds and cuts the layer list is non-empty — an operation whose
split results would leave zero pieces falls back to the pre-operation
layers. -/
theorem layers_nonempty_after_ops (size : ℚ) (ops : List Op) :
    (ops.foldl applyOp (PaperState.new size)).layers ≠ [] := by
  have h : ∀ s : PaperState, s.layers ≠ [] → (ops.foldl applyOp s).layers ≠ [] := by
    induction ops with
    | nil => exact fun s hs => hs
    | cons op rest ih =>
      intro s hs
      exact ih _ (applyOp_layers_ne_nil hs op)
  exact h _ (by simp [PaperState.new])

/-- C3 (counterexample): folding the unit square along `y = 1/2` with
`fold_side = "bottom"` does yield 2 layers, but the first (reflected) layer
contains `(0, 1)`, which is not a vertex of the list
`[(0,0),(1,0),(1,1/2),(0,1/2)]` the claim asserts for both layers — the
code moves the `side ≤ 0` piece and keeps the other half, the opposite of
what the claim states. -/
theorem valleyFold_midline_claim_false :
    ((PaperState.new 1).valleyFold (0, 1/2) (1, 1/2) "bottom").layers.length = 2 ∧
    ((0 : ℚ), (1 : ℚ)) ∈
      (((PaperState.new 1).valleyFold (0, 1/2) (1, 1/2) "bottom").layers.headD []) ∧
    ((0 : ℚ), (1 : ℚ)) ∉ ([(0, 0), (1, 0), (1, 1/2), (0, 1/2)] : List Point) :=
  of_decide_eq_true (by with_unfolding_all rfl)

/-- C3 (amended): the fold yields exactly 2 layers — first the reflection
of the `side ≤ 0` half `[(0,0),(1,0),(1,1/2),(0,1/2)]`, which reflects to
`[(0,1),(1,1),(1,1/2),(0,1/2)]`, then the stationary `side ≥ 0` half
`[(1,1/2),(1,1),(0,1),(0,1/2)]`; the reflected piece precedes the
stationary piece and both cover the same half of the square. -/
theorem valleyFold_midline_result :
    ((PaperState.new 1).valleyFold (0, 1/2) (1, 1/2) "bottom").layers =
      [[(0, 1), (1, 1), (1, 1/2), (0, 1/2)], [(1, 1/2), (1, 1), (0, 1), (0, 1/2)]] :=
  of_decide_eq_true (by with_unfolding_all rfl)

/-- C1 (counterexample, both failure modes).  Dropping: for the unit square
and the fold line through `(10,1/2)`–`(11,1/2)`, the consecutive vertices
`(1,0)` and `(1,1)` lie strictly on opposite sides and the crossing point of
that edge with the line is `(1,1/2)` (its side value is 0), yet it appears
in neither output, because `_line_segment_intersection` treats the fold line
as a finite segment and its parameter `s = -9` is out of range.
Duplicating: for the self-intersecting polygon `[(0,0),(1,1),(1,0),(0,1)]`
and the line through `(0,1/2)`–`(1,1/2)`, the consecutive vertices `(0,0)`
and `(1,1)` lie strictly on opposite sides and the crossing point of that
edge is `(1/2,1/2)`, but it occurs twice in each output list, because the
later edge `(1,0)`–`(0,1)` crosses the line at the same point. -/
theorem splitPolygon_drops_or_duplicates_crossing :
    (sideOfLine 1 0 10 (1/2) 11 (1/2) < -eps ∧
     eps < sideOfLine 1 1 10 (1/2) 11 (1/2) ∧
     sideOfLine 1 (1/2) 10 (1/2) 11 (1/2) = 0 ∧
     splitPolygon [(0,0),(1,0),(1,1),(0,1)] 10 (1/2) 11 (1/2) =
       ([(1,1),(0,1)], [(0,0),(1,0)]) ∧
     ((1 : ℚ), (1 : ℚ)/2) ∉ (splitPolygon [(0,0),(1,0),(1,1),(0,1)] 10 (1/2) 11 (1/2)).1 ∧
     ((1 : ℚ), (1 : ℚ)/2) ∉ (splitPolygon [(0,0),(1,0),(1,1),(0,1)] 10 (1/2) 11 (1/2)).2) ∧
    (sideOfLine 0 0 0 (1/2) 1 (1/2) < -eps ∧
     eps < sideOfLine 1 1 0 (1/2) 1 (1/2) ∧
     lineSegmentIntersection 0 0 1 1 0 (1/2) 1 (1/2) = some (1/2, 1/2) ∧
     (splitPolygon [(0,0),(1,1),(1,0),(0,1)] 0 (1/2) 1 (1/2)).1.count
       ((1 : ℚ)/2, (1 : ℚ)/2) = 2 ∧
     (splitPolygon [(0,0),(1,1),(1,0),(0,1)] 0 (1/2) 1 (1/2)).2.count
       ((1 : ℚ)/2, (1 : ℚ)/2) = 2) :=
  of_decide_eq_true (by with_unfolding_all rfl)


lemma side_of_intersection (ax1 ay1 ax2 ay2 bx1 by1 bx2 by2 px py : ℚ)
    (h : lineSegmentIntersection ax1 ay1 ax2 ay2 bx1 by1 bx2 by2 = some (px, py)) :
    sideOfLine px py bx1 by1 bx2 by2 = 0 := by
  simp only [lineSegmentIntersection] at h
  split at h
  · exact absurd h (by simp)
  · rename_i hd
    split at h
    · rename_i hrange
      have hdenom : (ax2 - ax1) * (by2 - by1) - (ay2 - ay1) * (bx2 - bx1) ≠ 0 := by
        intro h0
        apply hd
        rw [h0, abs_zero]
        exact eps_pos
      rw [Option.some.injEq, Prod.mk.injEq] at h
      obtain ⟨hx, hy⟩ := h
      rw [← hx, ← hy]
      simp only [sideOfLine]
      field_simp
      ring
    · exact absurd h (by simp)

/-- C1 (amended): whenever two consecutive vertices lie strictly on
opposite sides of the line and `_line_segment_intersection` returns a point
for that edge, the edge's loop iteration appends the point exactly once to
each of the left and right lists — that contribution neither drops nor
duplicates it — and consequently the point occurs in both full output lists.
The point is dropped from both outputs when the intersection call returns
`None`, and a full output can hold the same crossing point more than once
when several crossing edges meet the line at that point. -/
theorem splitPolygon_inserts_returned_crossing
    (poly : List Point) (lx1 ly1 lx2 ly2 : ℚ) (c nx pt : Point)
    (hpair : (c, nx) ∈ cyclePairs poly)
    (hcross : (eps < sideOfLine c.1 c.2 lx1 ly1 lx2 ly2 ∧
                sideOfLine nx.1 nx.2 lx1 ly1 lx2 ly2 < -eps) ∨
              (sideOfLine c.1 c.2 lx1 ly1 lx2 ly2 < -eps ∧
                eps < sideOfLine nx.1 nx.2 lx1 ly1 lx2 ly2))
    (hint : lineSegmentIntersection c.1 c.2 nx.1 nx.2 lx1 ly1 lx2 ly2 = some pt) :
    ((splitStep lx1 ly1 lx2 ly2 c nx).1.count pt = 1 ∧
     (splitStep lx1 ly1 lx2 ly2 c nx).2.count pt = 1) ∧
    (pt ∈ (splitPolygon poly lx1 ly1 lx2 ly2).1 ∧
     pt ∈ (splitPolygon poly lx1 ly1 lx2 ly2).2) := by
  have heps := eps_pos
  have hside0 : sideOfLine pt.1 pt.2 lx1 ly1 lx2 ly2 = 0 := by
    obtain ⟨px, py⟩ := pt
    exact side_of_intersection c.1 c.2 nx.1 nx.2 lx1 ly1 lx2 ly2 px py hint
  have hne : pt ≠ c := by
    intro hcp
    rcases hcross with ⟨h1, _⟩ | ⟨h1, _⟩
    · rw [← hcp, hside0] at h1
      linarith
    · rw [← hcp, hside0] at h1
      linarith
  have hcne : (pt == c) = false := beq_eq_false_iff_ne.mpr hne
  have hstep : splitStep lx1 ly1 lx2 ly2 c nx =
      ((if 0 ≤ sideOfLine c.1 c.2 lx1 ly1 lx2 ly2 then [c] else []) ++ [pt],
       (if sideOfLine c.1 c.2 lx1 ly1 lx2 ly2 ≤ 0 then [c] else []) ++ [pt]) := by
    simp only [splitStep, if_pos hcross, hint]
  have hone : ∀ (P : Prop) (inst : Decidable P),
      ((if P then [c] else ([] : List Point)) ++ [pt]).count pt = 1 := by
    intro P inst
    rw [List.count_append]
    have h0 : (if P then [c] else ([] : List Point)).count pt = 0 := by
      split
      · simp [List.count_cons, hne.symm]
      · rfl
    rw [h0]
    simp [List.count_cons]
  refine ⟨⟨?_, ?_⟩, ?_, ?_⟩
  · rw [hstep]
    exact hone _ _
  · rw [hstep]
    exact hone _ _
  · refine List.mem_flatMap_of_mem hpair ?_
    rw [hstep]
    simp
  · refine List.mem_flatMap_of_mem hpair ?_
    rw [hstep]
    simp

/-- Witness for C1's amended theorem: the square split along `y = 1/2`,
edge `(1,0)`–`(1,1)`, crossing point `(1,1/2)`. -/
theorem splitPolygon_inserts_returned_crossing_witness :
    (((splitStep 0 (1/2) 1 (1/2) (1, 0) (1, 1)).1.count ((1 : ℚ), (1 : ℚ)/2) = 1 ∧
      (splitStep 0 (1/2) 1 (1/2) (1, 0) (1, 1)).2.count ((1 : ℚ), (1 : ℚ)/2) = 1) ∧
     (((1 : ℚ), (1 : ℚ)/2) ∈ (splitPolygon [(0,0),(1,0),(1,1),(0,1)] 0 (1/2) 1 (1/2)).1 ∧
      ((1 : ℚ), (1 : ℚ)/2) ∈ (splitPolygon [(0,0),(1,0),(1,1),(0,1)] 0 (1/2) 1 (1/2)).2)) :=
  splitPolygon_inserts_returned_crossing [(0,0),(1,0),(1,1),(0,1)] 0 (1/2) 1 (1/2)
    (1, 0) (1, 1) (1, 1/2)
    (of_decide_eq_true (by with_unfolding_all rfl))
    (of_decide_eq_true (by with_unfolding_all rfl))
    (of_decide_eq_true (by with_unfolding_all rfl))


lemma mem_if_singleton {s : ℚ} {c q : Point}
    (hq : q ∈ (if 0 ≤ s then [c] else ([] : List Point))) : q = c ∧ 0 ≤ s := by
  split at hq
  · exact ⟨List.mem_singleton.mp hq, by assumption⟩
  · exact absurd hq (List.not_mem_nil q)

lemma splitStep_fst_mem (lx1 ly1 lx2 ly2 : ℚ) (c nx q : Point)
    (hq : q ∈ (splitStep lx1 ly1 lx2 ly2 c nx).1) :
    (q = c ∧ 0 ≤ sideOfLine c.1 c.2 lx1 ly1 lx2 ly2) ∨
      sideOfLine q.1 q.2 lx1 ly1 lx2 ly2 = 0 := by
  by_cases hcross : (eps < sideOfLine c.1 c.2 lx1 ly1 lx2 ly2 ∧
        sideOfLine nx.1 nx.2 lx1 ly1 lx2 ly2 < -eps) ∨
      (sideOfLine c.1 c.2 lx1 ly1 lx2 ly2 < -eps ∧
        eps < sideOfLine nx.1 nx.2 lx1 ly1 lx2 ly2)
  · cases hI : lineSegmentIntersection c.1 c.2 nx.1 nx.2 lx1 ly1 lx2 ly2 with
    | none =>
      simp only [splitStep, if_pos hcross, hI] at hq
      exact Or.inl (mem_if_singleton hq)
    | some pt =>
      simp only [splitStep, if_pos hcross, hI, List.mem_append,
        List.mem_singleton] at hq
      rcases hq with hq | hq
      · exact Or.inl (mem_if_singleton hq)
      · subst hq
        obtain ⟨px, py⟩ := q
        exact Or.inr (side_of_intersection c.1 c.2 nx.1 nx.2 lx1 ly1 lx2 ly2 px py hI)
  · simp only [splitStep, if_neg hcross] at hq
    exact Or.inl (mem_if_singleton hq)

lemma splitPolygon_fst_side_nonneg (poly : List Point) (lx1 ly1 lx2 ly2 : ℚ) :
    ∀ q ∈ (splitPolygon poly lx1 ly1 lx2 ly2).1,
      -eps ≤ sideOfLine q.1 q.2 lx1 ly1 lx2 ly2 := by
  intro q hq
  simp only [splitPolygon, List.mem_flatMap] at hq
  obtain ⟨pr, _, hq⟩ := hq
  have heps := eps_pos
  rcases splitStep_fst_mem lx1 ly1 lx2 ly2 pr.1 pr.2 q hq with ⟨rfl, h0⟩ | h0
  · linarith
  · linarith [h0.ge, h0.le]

/-- C4 (amended): after `cut(line, keep_side="left")`, provided at least one
layer keeps a non-empty left piece (so the empty-result fallback does not
fire), every vertex of every resulting layer satisfies
`side(vertex, line) ≥ -eps`. -/
theorem cut_keepLeft_side_nonneg (s : PaperState) (l1 l2 : Point)
    (hne : s.layers.flatMap (cutPieces l1.1 l1.2 l2.1 l2.2 "left") ≠ []) :
    ∀ layer ∈ (s.cut l1 l2 "left").layers, ∀ p ∈ layer,
      -eps ≤ sideOfLine p.1 p.2 l1.1 l1.2 l2.1 l2.2 := by
  intro layer hlayer p hp
  simp only [PaperState.cut, if_pos hne] at hlayer
  simp only [List.mem_flatMap] at hlayer
  obtain ⟨poly, hpoly, hlayer⟩ := hlayer
  simp only [cutPieces] at hlayer
  split at hlayer
  · rw [List.mem_singleton.mp hlayer] at hp
    exact splitPolygon_fst_side_nonneg poly l1.1 l1.2 l2.1 l2.2 p hp
  · split at hlayer
    · rename_i hcond
      exact absurd hcond.1 (by decide)
    · exact absurd hlayer (List.not_mem_nil layer)

/-- Witness for C4's amended theorem: cutting the unit square along
`y = 1/2` keeping the left side. -/
theorem cut_keepLeft_side_nonneg_witness :
    ((PaperState.new 1).layers.flatMap (cutPieces 0 (1/2) 1 (1/2) "left") ≠ []) ∧
    ∀ layer ∈ ((PaperState.new 1).cut (0, 1/2) (1, 1/2) "left").layers, ∀ p ∈ layer,
      -eps ≤ sideOfLine p.1 p.2 0 (1/2) 1 (1/2) :=
  ⟨of_decide_eq_true (by with_unfolding_all rfl),
   cut_keepLeft_side_nonneg (PaperState.new 1) (0, 1/2) (1, 1/2)
     (of_decide_eq_true (by with_unfolding_all rfl))⟩

/-- C4 (counterexample): cutting the unit square with `keep_side="left"`
along the line from `(5,1)` to `(5,0)` leaves every vertex on the discarded
side, so the fallback keeps the original layers, and the vertex `(0,0)` of
the result has side value `-5 < -eps`. -/
theorem cut_keepLeft_claim_false :
    ((0 : ℚ), (0 : ℚ)) ∈ (((PaperState.new 1).cut (5, 1) (5, 0) "left").layers.headD []) ∧
    sideOfLine 0 0 5 1 5 0 < -eps :=
  of_decide_eq_true (by with_unfolding_all rfl)


lemma splitStep_of_pos (lx1 ly1 lx2 ly2 : ℚ) (c nx : Point)
    (hc : 0 < sideOfLine c.1 c.2 lx1 ly1 lx2 ly2)
    (hn : 0 < sideOfLine nx.1 nx.2 lx1 ly1 lx2 ly2) :
    splitStep lx1 ly1 lx2 ly2 c nx = ([c], []) := by
  have heps := eps_pos
  have hcross : ¬ ((eps < sideOfLine c.1 c.2 lx1 ly1 lx2 ly2 ∧
        sideOfLine nx.1 nx.2 lx1 ly1 lx2 ly2 < -eps) ∨
      (sideOfLine c.1 c.2 lx1 ly1 lx2 ly2 < -eps ∧
        eps < sideOfLine nx.1 nx.2 lx1 ly1 lx2 ly2)) := by
    rintro (⟨_, h2⟩ | ⟨h1, _⟩)
    · linarith
    · linarith
  simp only [splitStep, if_neg hcross, if_pos hc.le, if_neg (not_le.mpr hc)]

lemma splitStep_of_neg (lx1 ly1 lx2 ly2 : ℚ) (c nx : Point)
    (hc : sideOfLine c.1 c.2 lx1 ly1 lx2 ly2 < 0)
    (hn : sideOfLine nx.1 nx.2 lx1 ly1 lx2 ly2 < 0) :
    splitStep lx1 ly1 lx2 ly2 c nx = ([], [c]) := by
  have heps := eps_pos
  have hcross : ¬ ((eps < sideOfLine c.1 c.2 lx1 ly1 lx2 ly2 ∧
        sideOfLine nx.1 nx.2 lx1 ly1 lx2 ly2 < -eps) ∨
      (sideOfLine c.1 c.2 lx1 ly1 lx2 ly2 < -eps ∧
        eps < sideOfLine nx.1 nx.2 lx1 ly1 lx2 ly2)) := by
    rintro (⟨h1, _⟩ | ⟨_, h2⟩)
    · linarith
    · linarith
  simp only [splitStep, if_neg hcross, if_neg (not_le.mpr hc), if_pos hc.le]

lemma splitPolygon_of_all_pos (poly : List Point) (lx1 ly1 lx2 ly2 : ℚ)
    (h : ∀ p ∈ poly, 0 < sideOfLine p.1 p.2 lx1 ly1 lx2 ly2) :
    splitPolygon poly lx1 ly1 lx2 ly2 = (poly, []) := by
  have hstep : ∀ pr ∈ cyclePairs poly,
      splitStep lx1 ly1 lx2 ly2 pr.1 pr.2 = ([pr.1], []) := by
    intro pr hpr
    have hm := cyclePairs_mem hpr
    exact splitStep_of_pos lx1 ly1 lx2 ly2 pr.1 pr.2 (h pr.1 hm.1) (h pr.2 hm.2)
  simp only [splitPolygon, Prod.mk.injEq]
  constructor
  · rw [flatMap_congr_mem (g := fun pr => [pr.1]) (fun pr hpr => by rw [hstep pr hpr]),
      flatMap_fst_singleton, cyclePairs_map_fst]
  · rw [flatMap_congr_mem (g := fun _ => ([] : List Point))
      (fun pr hpr => by rw [hstep pr hpr])]
    exact List.flatMap_eq_nil_iff.mpr fun _ _ => rfl

lemma splitPolygon_of_all_neg (poly : List Point) (lx1 ly1 lx2 ly2 : ℚ)
    (h : ∀ p ∈ poly, sideOfLine p.1 p.2 lx1 ly1 lx2 ly2 < 0) :
    splitPolygon poly lx1 ly1 lx2 ly2 = ([], poly) := by
  have hstep : ∀ pr ∈ cyclePairs poly,
      splitStep lx1 ly1 lx2 ly2 pr.1 pr.2 = ([], [pr.1]) := by
    intro pr hpr
    have hm := cyclePairs_mem hpr
    exact splitStep_of_neg lx1 ly1 lx2 ly2 pr.1 pr.2 (h pr.1 hm.1) (h pr.2 hm.2)
  simp only [splitPolygon, Prod.mk.injEq]
  constructor
  · rw [flatMap_congr_mem (g := fun _ => ([] : List Point))
      (fun pr hpr => by rw [hstep pr hpr])]
    exact List.flatMap_eq_nil_iff.mpr fun _ _ => rfl
  · rw [flatMap_congr_mem (g := fun pr => [pr.1]) (fun pr hpr => by rw [hstep pr hpr]),
      flatMap_fst_singleton, cyclePairs_map_fst]


lemma foldPieces_of_all_pos (poly : List Point) (lx1 ly1 lx2 ly2 : ℚ) (fs : String)
    (hlay : poly ≠ []) (hpos : ∀ p ∈ poly, 0 < sideOfLine p.1 p.2 lx1 ly1 lx2 ly2)
    (hfs : fs = "bottom" ∨ fs = "right") :
    foldPieces lx1 ly1 lx2 ly2 fs poly = [poly] := by
  simp only [foldPieces, splitPolygon_of_all_pos poly lx1 ly1 lx2 ly2 hpos, if_pos hfs]
  simp [hlay]

lemma foldPieces_of_all_neg (poly : List Point) (lx1 ly1 lx2 ly2 : ℚ) (fs : String)
    (hlay : poly ≠ []) (hneg : ∀ p ∈ poly, sideOfLine p.1 p.2 lx1 ly1 lx2 ly2 < 0)
    (hfs : ¬ (fs = "bottom" ∨ fs = "right")) :
    foldPieces lx1 ly1 lx2 ly2 fs poly = [poly] := by
  simp only [foldPieces, splitPolygon_of_all_neg poly lx1 ly1 lx2 ly2 hneg, if_neg hfs]
  simp [hlay]

lemma cutPieces_of_all_pos (poly : List Point) (lx1 ly1 lx2 ly2 : ℚ) (ks : String)
    (hlay : poly ≠ []) (hpos : ∀ p ∈ poly, 0 < sideOfLine p.1 p.2 lx1 ly1 lx2 ly2) :
    cutPieces lx1 ly1 lx2 ly2 ks poly = if ks = "left" then [poly] else [] := by
  simp only [cutPieces, splitPolygon_of_all_pos poly lx1 ly1 lx2 ly2 hpos]
  by_cases hks : ks = "left"
  · rw [if_pos ⟨hks, hlay⟩, if_pos hks]
  · rw [if_neg (fun hc => hks hc.1), if_neg (fun hc => hc.2 rfl), if_neg hks]

lemma cutPieces_of_all_neg (poly : List Point) (lx1 ly1 lx2 ly2 : ℚ) (ks : String)
    (hlay : poly ≠ []) (hneg : ∀ p ∈ poly, sideOfLine p.1 p.2 lx1 ly1 lx2 ly2 < 0) :
    cutPieces lx1 ly1 lx2 ly2 ks poly = if ks = "right" then [poly] else [] := by
  simp only [cutPieces, splitPolygon_of_all_neg poly lx1 ly1 lx2 ly2 hneg]
  rw [if_neg (fun hc => hc.2 rfl)]
  by_cases hks : ks = "right"
  · rw [if_pos ⟨hks, hlay⟩, if_pos hks]
  · rw [if_neg (fun hc => hks hc.1), if_neg hks]

lemma valleyFold_noop_of_stationary (s : PaperState) (l1 l2 : Point) (fs : String)
    (hfp : ∀ poly ∈ s.layers,
      foldPieces l1.1 l1.2 l2.1 l2.2 fs poly = [poly]) :
    s.valleyFold l1 l2 fs = s := by
  simp only [PaperState.valleyFold]
  rw [flatMap_congr_mem hfp, List.flatMap_singleton', ite_self]

lemma cut_noop_of_oneside (s : PaperState) (l1 l2 : Point) (ks side2 : String)
    (hcp : ∀ poly ∈ s.layers,
      cutPieces l1.1 l1.2 l2.1 l2.2 ks poly = if ks = side2 then [poly] else []) :
    s.cut l1 l2 ks = s := by
  simp only [PaperState.cut]
  by_cases hks : ks = side2
  · rw [flatMap_congr_mem (g := fun poly => [poly])
      (fun poly hpoly => by rw [hcp poly hpoly, if_pos hks]),
      List.flatMap_singleton', ite_self]
  · rw [flatMap_congr_mem (g := fun _ => ([] : List (List Point)))
      (fun poly hpoly => by rw [hcp poly hpoly, if_neg hks]),
      List.flatMap_eq_nil_iff.mpr fun _ _ => rfl,
      if_neg (fun hcon => hcon rfl)]

/-- C2 (amended): for a state with no empty layer (true of every reachable
state), an operation whose infinite fold line leaves every vertex strictly
on one side behaves as follows: `cut` (either `keep_side`) leaves the layer
list unchanged, and `valley_fold` / `mountain_fold` leave it unchanged
provided the vertices lie on the stationary side selected by `fold_side`
(the `side > 0` list for `"bottom"`/`"right"`, the `side < 0` list
otherwise); a fold whose paper lies entirely on the moving side instead
reflects the whole paper across the line. -/
theorem fold_cut_oneside_noop (s : PaperState) (l1 l2 : Point) (fs ks : String)
    (hlay : ∀ layer ∈ s.layers, layer ≠ []) :
    ((∀ layer ∈ s.layers, ∀ p ∈ layer, 0 < sideOfLine p.1 p.2 l1.1 l1.2 l2.1 l2.2) →
      ((fs = "bottom" ∨ fs = "right") →
        s.valleyFold l1 l2 fs = s ∧ s.mountainFold l1 l2 fs = s) ∧
      s.cut l1 l2 ks = s) ∧
    ((∀ layer ∈ s.layers, ∀ p ∈ layer, sideOfLine p.1 p.2 l1.1 l1.2 l2.1 l2.2 < 0) →
      ((¬ (fs = "bottom" ∨ fs = "right")) →
        s.valleyFold l1 l2 fs = s ∧ s.mountainFold l1 l2 fs = s) ∧
      s.cut l1 l2 ks = s) := by
  constructor
  · intro hpos
    constructor
    · intro hfs
      have hv := valleyFold_noop_of_stationary s l1 l2 fs fun poly hpoly =>
        foldPieces_of_all_pos poly l1.1 l1.2 l2.1 l2.2 fs (hlay poly hpoly)
          (hpos poly hpoly) hfs
      exact ⟨hv, hv⟩
    · exact cut_noop_of_oneside s l1 l2 ks "left" fun poly hpoly =>
        cutPieces_of_all_pos poly l1.1 l1.2 l2.1 l2.2 ks (hlay poly hpoly)
          (hpos poly hpoly)
  · intro hneg
    constructor
    · intro hfs
      have hv := valleyFold_noop_of_stationary s l1 l2 fs fun poly hpoly =>
        foldPieces_of_all_neg poly l1.1 l1.2 l2.1 l2.2 fs (hlay poly hpoly)
          (hneg poly hpoly) hfs
      exact ⟨hv, hv⟩
    · exact cut_noop_of_oneside s l1 l2 ks "right" fun poly hpoly =>
        cutPieces_of_all_neg poly l1.1 l1.2 l2.1 l2.2 ks (hlay poly hpoly)
          (hneg poly hpoly)

/-- Witness for C2's amended theorem: the line through `(0,-1)`–`(1,-1)`
lies below the unit square (every vertex has side value `> 0`), and folds
with `fold_side = "bottom"` and cuts keeping `"left"` are no-ops. -/
theorem fold_cut_oneside_noop_witness :
    (PaperState.new 1).valleyFold (0, -1) (1, -1) "bottom" = PaperState.new 1 ∧
    (PaperState.new 1).mountainFold (0, -1) (1, -1) "bottom" = PaperState.new 1 ∧
    (PaperState.new 1).cut (0, -1) (1, -1) "left" = PaperState.new 1 := by
  have h := (fold_cut_oneside_noop (PaperState.new 1) (0, -1) (1, -1) "bottom" "left"
    (of_decide_eq_true (by with_unfolding_all rfl))).1
    (of_decide_eq_true (by with_unfolding_all rfl))
  exact ⟨(h.1 (Or.inl rfl)).1, (h.1 (Or.inl rfl)).2, h.2⟩

/-- C2 (counterexample): the fold line through `(5,1)`–`(5,0)` lies entirely
outside the unit square's bounding box `(0,0,1,1)`, yet
`valley_fold(..., "bottom")` is not a no-op: the whole paper lies on the
moving (`side ≤ 0`) list, so it is reflected across `x = 5`. -/
theorem fold_outside_bbox_claim_false :
    (PaperState.new 1).getBounds = (0, 0, 1, 1) ∧
    ((PaperState.new 1).valleyFold (5, 1) (5, 0) "bottom").layers =
      [[(10, 0), (9, 0), (9, 1), (10, 1)]] ∧
    ((PaperState.new 1).valleyFold (5, 1) (5, 0) "bottom").layers ≠
      (PaperState.new 1).layers :=
  of_decide_eq_true (by with_unfolding_all rfl)


/-- C6: reflecting a point twice across a line defined by two distinct
points gives the point back, exactly, over rational arithmetic. -/
theorem reflect_involution (px py lx1 ly1 lx2 ly2 : ℚ)
    (hL : (lx1, ly1) ≠ (lx2, ly2)) :
    reflectPoint (reflectPoint px py lx1 ly1 lx2 ly2).1
      (reflectPoint px py lx1 ly1 lx2 ly2).2 lx1 ly1 lx2 ly2 = (px, py) := by
  have hlen : (lx2 - lx1) * (lx2 - lx1) + (ly2 - ly1) * (ly2 - ly1) ≠ 0 := by
    intro h0
    have hx : lx2 - lx1 = 0 := by
      nlinarith [mul_self_nonneg (lx2 - lx1), mul_self_nonneg (ly2 - ly1)]
    have hy : ly2 - ly1 = 0 := by
      nlinarith [mul_self_nonneg (lx2 - lx1), mul_self_nonneg (ly2 - ly1)]
    apply hL
    have h1 : lx1 = lx2 := by linarith
    have h2 : ly1 = ly2 := by linarith
    rw [h1, h2]
  simp only [reflectPoint, if_neg hlen]
  rw [Prod.mk.injEq]
  constructor
  · field_simp
    ring
  · field_simp
    ring

/-- Witness for C6: the point `(3, 4)` across the diagonal through `(0,0)`
and `(1,1)`. -/
theorem reflect_involution_witness :
    ((0 : ℚ), (0 : ℚ)) ≠ ((1 : ℚ), (1 : ℚ)) ∧
    reflectPoint (reflectPoint 3 4 0 0 1 1).1 (reflectPoint 3 4 0 0 1 1).2 0 0 1 1 =
      (3, 4) :=
  ⟨of_decide_eq_true (by with_unfolding_all rfl),
   reflect_involution 3 4 0 0 1 1 (of_decide_eq_true (by with_unfolding_all rfl))⟩

/-- C7: `build_tutorial_svgs` returns exactly one rendered diagram per input
operation, in order (equal lengths), and an operation whose kind is not
`valley_fold`, `mountain_fold` or `cut` leaves the paper state unchanged
while its step is still rendered. -/
theorem buildTutorialSvgs_spec :
    (∀ (ops : List FoldOp) (size : ℚ),
      (buildTutorialSvgs ops size).length = ops.length) ∧
    (∀ (paper : PaperState) (op : FoldOp),
      op.type.getD "valley_fold" ≠ "valley_fold" →
      op.type.getD "valley_fold" ≠ "mountain_fold" →
      op.type.getD "valley_fold" ≠ "cut" →
      applyTutorialOp paper op = paper) := by
  constructor
  · intro ops size
    exact buildGo_length (PaperState.new size) ops
  · intro paper op h1 h2 h3
    simp only [applyTutorialOp]
    rw [if_neg (not_or.mpr ⟨h1, h2⟩), if_neg h3]

/-- Witness for C7: a two-step tutorial whose first op has the unrecognized
kind `"flip"` still yields two diagrams, and `"flip"` does not change the
paper. -/
theorem buildTutorialSvgs_spec_witness :
    (buildTutorialSvgs [{ type := some "flip" }, {}] 1).length = 2 ∧
    applyTutorialOp (PaperState.new 1) { type := some "flip" } = PaperState.new 1 :=
  ⟨buildTutorialSvgs_spec.1 [{ type := some "flip" }, {}] 1,
   buildTutorialSvgs_spec.2 (PaperState.new 1) { type := some "flip" }
     (by decide) (by decide) (by decide)⟩

/-- C8 (amended): a layer with fewer than 1 point contributes no path data —
`_polygon_to_svg_path` returns the empty string for it, so its path elements
carry an empty `d` attribute — and rendering it raises no error. -/
theorem polygonToSvgPath_degenerate (layer : List Point) (tx ty : ℚ → ℚ)
    (h : layer.length < 1) : polygonToSvgPath layer tx ty = "" := by
  cases layer with
  | nil => rfl
  | cons p rest => simp at h

/-- Witness for C8's amended theorem: the empty layer. -/
theorem polygonToSvgPath_degenerate_witness :
    ([] : List Point).length < 1 ∧ polygonToSvgPath [] id id = "" :=
  ⟨by decide, polygonToSvgPath_degenerate [] id id (by decide)⟩

/-- C8 (counterexample): rendering a before-state holding one empty layer
does emit path elements for that layer — with an empty `d` attribute — so
the markup is not free of path elements derived from it. -/
theorem render_emits_empty_path_element :
    "  <path d=\"\" fill=\"#E8D5C0\" opacity=\"0.3\"/>" ∈
      renderStepSvgLines { layers := [[]], size := 1 } (PaperState.new 1)
        none "valley_fold" "" 340 260 ∧
    "  <path d=\"\" fill=\"#FFE8E8\" stroke=\"#8B7355\" stroke-width=\"1.5\"/>" ∈
      renderStepSvgLines { layers := [[]], size := 1 } (PaperState.new 1)
        none "valley_fold" "" 340 260 ∧
    renderStepSvg { layers := [[]], size := 1 } (PaperState.new 1)
        none "valley_fold" "" 340 260 =
      String.intercalate "\n"
        (renderStepSvgLines { layers := [[]], size := 1 } (PaperState.new 1)
          none "valley_fold" "" 340 260) :=
  ⟨of_decide_eq_true (by with_unfolding_all rfl),
   of_decide_eq_true (by with_unfolding_all rfl), rfl⟩

end PaperEngine
